import Mathlib

/-!
# Verification of the hoo-needs-help retrieval-and-confidence pipeline

Shallow embedding of the confidence-scoring, citation-extraction, retrieval
fallback and correction-submission logic of the course-assistant backend
(`backend/app/services/gemini.py`, `backend/app/services/custom_rag.py`,
`backend/app/routes/custom_rag/retrieve.py`, `backend/app/routes/rag.py`).

Numeric values are modelled as rationals (ℚ) with explicit decimal rounding;
external capabilities (the generation provider, the JSON decoder) are passed
in as function parameters, so that "does not invoke the provider" becomes a
statement about independence from that parameter.
-/

set_option linter.unusedVariables false

namespace HooNeedsHelp

/-- Decimal rounding: Python's `round(x, n)` modelled on ℚ (ties never arise
at the values produced by this pipeline, so the tie-breaking rule is
irrelevant to every statement below). -/
def roundTo (n : ℕ) (q : ℚ) : ℚ := (round (q * 10 ^ n) : ℤ) / 10 ^ n

/-- Clamp a rational to the interval [0, 1], as `max(0.0, min(1.0, x))`. -/
def clamp01 (q : ℚ) : ℚ := max 0 (min 1 q)

/-- ASCII-lowered copy of a string, modelling Python `str.lower()` on the
ASCII inputs this pipeline handles. -/
def lowerStr (s : String) : String := ⟨s.data.map Char.toLower⟩

/-- `startsWithL pre l` is true iff `pre` is an initial segment of `l`. -/
def startsWithL : List Char → List Char → Bool
  | [], _ => true
  | _ :: _, [] => false
  | a :: as, b :: bs => a = b && startsWithL as bs

/-- `containsSub needle haystack`: `needle` occurs contiguously in
`haystack`, modelling Python's `in` on strings. -/
def containsSub (needle : List Char) : List Char → Bool
  | [] => needle.isEmpty
  | c :: rest => startsWithL needle (c :: rest) || containsSub needle rest

/-- The hedging-phrase list of `calculate_heuristic_confidence`
(`gemini.py`, `uncertainty_phrases`). -/
def uncertainty_phrases : List String :=
  ["i don\x27t have enough information",
   "i cannot answer",
   "not sure",
   "unclear",
   "might be",
   "possibly",
   "perhaps"]

/-- Chunk metadata as used by the pipeline (`metadata` dicts on rows of the
vector tables): optional provenance fields. -/
structure Metadata where
  mtype : Option String
  file_name : Option String
  page : Option ℕ
  start_time : Option ℚ
  course_id : Option String
deriving DecidableEq, Repr, Inhabited

/-- A retrieved document chunk (`content` plus `metadata`, with the row's
`document_id`). -/
structure Chunk where
  content : String
  metadata : Metadata
  document_id : Option String
deriving DecidableEq, Repr, Inhabited

/-- A TA-verified answer as retrieved for context (`question`/`answer`). -/
structure VerifiedAnswer where
  question : String
  answer : String
deriving DecidableEq, Repr, Inhabited

/-- `calculate_heuristic_confidence(answer, context_chunks, verified_answers)`
from `gemini.py` lines 244-284: baseline 0.5, −0.3 on a hedging phrase,
+0.2 for non-empty chunks, +0.2 for non-empty verified answers, +0.1 when
the answer contains both a left and a right parenthesis character, then
clamp to [0,1] and round to two decimals. -/
def calculate_heuristic_confidence (answer : String) (context_chunks : List Chunk)
    (verified_answers : List VerifiedAnswer) : ℚ :=
  let answer_lower := lowerStr answer
  let c1 : ℚ := 1/2
  let c2 := if uncertainty_phrases.any (fun p => containsSub p.data answer_lower.data)
    then c1 - 3/10 else c1
  let c3 := if 0 < context_chunks.length then c2 + 1/5 else c2
  let c4 := if 0 < verified_answers.length then c3 + 1/5 else c3
  let c5 := if answer.data.contains '(' && answer.data.contains ')' then c4 + 1/10 else c4
  roundTo 2 (clamp01 c5)

/-- The spec's reading of the citation bonus: the answer contains a
parenthesized substring, i.e. some `(` occurring before some `)`. -/
def hasParenPair (l : List Char) : Bool :=
  ((l.dropWhile (fun c => c ≠ '(')).drop 1).contains ')'

/-- Heuristic confidence as the specification words it ("contains a
parenthesized citation-like substring"), for comparison with the code's
check. -/
def spec_heuristic_confidence (answer : String) (context_chunks : List Chunk)
    (verified_answers : List VerifiedAnswer) : ℚ :=
  let answer_lower := lowerStr answer
  let c1 : ℚ := 1/2
  let c2 := if uncertainty_phrases.any (fun p => containsSub p.data answer_lower.data)
    then c1 - 3/10 else c1
  let c3 := if 0 < context_chunks.length then c2 + 1/5 else c2
  let c4 := if 0 < verified_answers.length then c3 + 1/5 else c3
  let c5 := if hasParenPair answer.data then c4 + 1/10 else c4
  roundTo 2 (clamp01 c5)

/-- A structured citation record, as built by `extract_citations` in
`gemini.py`: chunk citations carry provenance, verified citations carry only
the question text. Absent dictionary keys are modelled as `none`. -/
structure Citation where
  ctype : String
  file_name : Option String
  doc_id : Option String
  page : Option ℕ
  timestamp : Option ℚ
  question : Option String
deriving DecidableEq, Repr, Inhabited

/-- The citation dictionary built from one chunk (`extract_citations`,
`gemini.py` lines 302-315). -/
def chunk_citation (chunk : Chunk) : Citation :=
  { ctype := chunk.metadata.mtype.getD "pdf"
    file_name := some (chunk.metadata.file_name.getD "")
    doc_id := chunk.document_id
    page := chunk.metadata.page
    timestamp := chunk.metadata.start_time
    question := none }

/-- The citation dictionary built from one verified answer
(`extract_citations`, `gemini.py` lines 318-322). -/
def verified_citation (v : VerifiedAnswer) : Citation :=
  { ctype := "verified"
    file_name := none
    doc_id := none
    page := none
    timestamp := none
    question := some v.question }

/-- `extract_citations(answer, chunks, verified)` from `gemini.py` lines
287-324: one citation per chunk appended first, then one per verified
answer. The `answer` argument is unused, as in the source. -/
def extract_citations (answer : String) (chunks : List Chunk)
    (verified : List VerifiedAnswer) : List Citation :=
  chunks.map chunk_citation ++ verified.map verified_citation

/-- The four context lines emitted for the `i`-th verified answer in
`generate_answer` (`gemini.py` lines 99-103). -/
def verified_context_block (i : ℕ) (v : VerifiedAnswer) : List String :=
  ["[VERIFIED ANSWER " ++ toString (i + 1) ++ "]",
   "Q: " ++ v.question,
   "A: " ++ v.answer,
   ""]

/-- The provenance line emitted before a chunk's content in
`generate_answer` (`gemini.py` lines 110-115). -/
def chunk_source_info (c : Chunk) : String :=
  let s1 := "[Source: " ++ c.metadata.file_name.getD "unknown"
  let s2 := match c.metadata.page with
    | some p => s1 ++ ", page " ++ toString p
    | none => s1
  let s3 := match c.metadata.start_time with
    | some t => s2 ++ ", timestamp " ++ toString t ++ "s"
    | none => s2
  s3 ++ "]"

/-- The assembled context line list of `generate_answer` (`gemini.py`
lines 96-119): verified answers first, then chunks. -/
def context_parts (context_chunks : List Chunk)
    (verified_answers : List VerifiedAnswer) : List String :=
  (verified_answers.enum.map (fun p => verified_context_block p.1 p.2)).flatten ++
    (context_chunks.map (fun c => [chunk_source_info c, c.content, ""])).flatten

/-- The fixed fallback phrase named in the prompt instructions of
`generate_answer`. -/
def fallback_phrase : String :=
  "I don\x27t have enough information in the course materials to answer this question"

/-- The full prompt string built by `generate_answer` (`gemini.py` lines
124-137). -/
def build_prompt (system_prompt context_text question : String) : String :=
  "System: " ++ system_prompt ++
    "\n\nContext (use ONLY this information to answer):\n" ++ context_text ++
    "\n\nUser Question: " ++ question ++
    "\n\nInstructions:\n- Answer the question using ONLY the context provided above\n" ++
    "- Include citations in your answer in the format: (source_name, page X) or (source_name, timestamp Xs)\n" ++
    "- If the context doesn\x27t contain relevant information, say \x22" ++ fallback_phrase ++
    "\x22\n- Be helpful and clear in your explanation\n\nAnswer:"

/-- `calculate_confidence_score` from `gemini.py` lines 168-241. The model
evaluation is abstracted as `model_eval : Option ℚ`: `some v` is a
successfully parsed model response, `none` covers both a provider failure
and an unparseable response text, both of which fall back to
`calculate_heuristic_confidence` in the source. -/
def calculate_confidence_score (model_eval : Option ℚ) (question answer : String)
    (context_chunks : List Chunk) (verified_answers : List VerifiedAnswer) : ℚ :=
  match model_eval with
  | none => calculate_heuristic_confidence answer context_chunks verified_answers
  | some v =>
      let confidence := max 0 (min 1 v)
      let adjusted :=
        if context_chunks.length = 0 ∧ verified_answers.length = 0 then
          confidence * (3/10)
        else if 0 < verified_answers.length then
          min 1 (confidence * (11/10))
        else confidence
      roundTo 2 adjusted

/-- The structured result of `generate_answer` (`gemini.py` lines 156-161). -/
structure AnswerPackage where
  answer : String
  citations : List Citation
  confidence_score : ℚ
  sources_used : ℕ
deriving DecidableEq, Repr, Inhabited

/-- `generate_answer(question, context_chunks, verified_answers,
system_prompt)` from `gemini.py` lines 74-165. The generation provider is
the explicit parameter `gen`; the answer text is always `gen` applied to
the built prompt — the source has no empty-context short circuit. -/
def generate_answer (gen : String → String) (model_eval : Option ℚ)
    (question : String) (context_chunks : List Chunk)
    (verified_answers : List VerifiedAnswer) (system_prompt : String) : AnswerPackage :=
  let context_text := String.intercalate "\n" (context_parts context_chunks verified_answers)
  let prompt := build_prompt system_prompt context_text question
  let answer_text := gen prompt
  { answer := answer_text
    citations := extract_citations answer_text context_chunks verified_answers
    confidence_score :=
      calculate_confidence_score model_eval question answer_text context_chunks verified_answers
    sources_used := context_chunks.length + verified_answers.length }

/-- The fixed phrase returned by `custom_retrieve_answer` (and by
`run_query` with `structured=True`) when the assembled context is empty. -/
def custom_fallback_phrase : String :=
  "I couldn\x27t find relevant course materials to answer that."

/-- Citation shape of the custom path (`custom_rag.py` lines 183-192). -/
structure CustomCitation where
  ctype : String
  file_name : Option String
  page : Option ℕ
  metadata : Metadata
deriving DecidableEq, Repr, Inhabited

/-- One citation of the custom path, from a chunk's metadata. -/
def custom_citation (md : Metadata) : CustomCitation :=
  { ctype := md.mtype.getD "pdf", file_name := md.file_name, page := md.page, metadata := md }

/-- Return shape of `custom_retrieve_answer` (`custom_rag.py`):
`{answer, citations, sources}`. -/
structure CustomAnswer where
  answer : String
  citations : List CustomCitation
  sources : List (String × Metadata)
deriving DecidableEq, Repr, Inhabited

/-- The context segments built by `custom_retrieve_answer` (`custom_rag.py`
lines 144-162): chunk contents, then one `Verified QA` block per verified
answer whose answer text is non-empty (Python truthiness). -/
def custom_context_parts (docs : List Chunk)
    (verified_answers : List VerifiedAnswer) : List String :=
  docs.map (fun d => d.content) ++
    verified_answers.filterMap (fun va =>
      if va.answer ≠ "" then
        some ("Verified QA\nQ: " ++ va.question ++ "\nA: " ++ va.answer)
      else none)

/-- The prompt of the custom path (`custom_rag.py` lines 174-177), with the
system and human messages concatenated. -/
def custom_prompt (system_prompt context question : String) : String :=
  "System: " ++ system_prompt ++ " Always cite the provided sources inline when applicable." ++
    "\nHuman: Context:\n" ++ context ++ "\n\nQuestion: " ++ question ++
    "\nAnswer succinctly and ground your answer in the context."

/-- The deterministic core of `custom_retrieve_answer` (`custom_rag.py`
lines 144-198), after retrieval: assemble context, short-circuit to the
fixed phrase when the joined context is empty, otherwise invoke the
generation provider `gen` and build citations and sources from the chunks. -/
def custom_retrieve_answer (gen : String → String) (system_prompt question : String)
    (docs : List Chunk) (verified_answers : List VerifiedAnswer) : CustomAnswer :=
  let parts := custom_context_parts docs verified_answers
  let context := String.intercalate "\n\n" parts
  if context = "" then
    { answer := custom_fallback_phrase, citations := [], sources := [] }
  else
    { answer := gen (custom_prompt system_prompt context question)
      citations := docs.map (fun d => custom_citation d.metadata)
      sources := docs.map (fun d => (d.content, d.metadata)) }

/-- Maximal runs of alphanumeric characters, modelling
`re.findall(r"[A-Za-z0-9]+", s)` (`acc` holds the current run reversed). -/
def tokensAux : List Char → List Char → List (List Char)
  | [], acc => if acc.isEmpty then [] else [acc.reverse]
  | c :: rest, acc =>
    if c.isAlphanum then tokensAux rest (c :: acc)
    else if acc.isEmpty then tokensAux rest []
    else acc.reverse :: tokensAux rest []

/-- The distinct content-bearing query tokens of `_compute_confidence`
(`retrieve.py` line 30): alphanumeric runs of the lowercased query, deduplicated
(the source builds a set), kept when longer than 3 characters. -/
def queryTokens (query : String) : List (List Char) :=
  ((tokensAux (lowerStr query).data []).dedup).filter (fun t => 3 < t.length)

/-- `max` of a list of rationals, as Python `max` on a non-empty list (the
source only applies it to non-empty `usable_scores`; `0` on `[]`). -/
def listMax : List ℚ → ℚ
  | [] => 0
  | x :: rest => rest.foldl max x

/-- Arithmetic mean, `sum(l)/len(l)` (the source only divides non-empty
lists). -/
def avgQ (l : List ℚ) : ℚ := l.sum / (l.length : ℚ)

/-- `_compute_confidence(query, docs, scores)` from `retrieve.py` lines
15-49 (Lean identifiers cannot start with an underscore). Scores are
`Option ℚ`: `none` models a score that is not a number (`isinstance`
filter). -/
def compute_confidence (query : String) (docs : List Chunk)
    (scores : List (Option ℚ)) : ℚ :=
  if docs.isEmpty then 0
  else
    let context := String.intercalate " " (docs.map (fun d => lowerStr d.content))
    let tokens := queryTokens query
    let matched := (tokens.filter (fun t => containsSub t context.data)).length
    let coverage : ℚ := if tokens.length = 0 then 0 else (matched : ℚ) / (tokens.length : ℚ)
    let usable := scores.filterMap id
    let score_component : ℚ :=
      if usable.isEmpty then 0
      else if listMax usable ≤ 3/2 then avgQ (usable.map clamp01)
      else avgQ (usable.map (fun s => 1 / (1 + max s 0)))
    let confidence := 3/5 * score_component + 2/5 * coverage
    roundTo 4 (clamp01 confidence)

/-- The blend of heuristic and model self-evaluation confidence in
`run_query` (`retrieve.py` lines 196-207): a 40/60 weighted average rounded
to 4 decimals when a model confidence is available, the heuristic score
alone otherwise (`none` also covers the disabled and failed cases). -/
def combined_confidence (confidence_score : ℚ) (model_confidence : Option ℚ) : ℚ :=
  match model_confidence with
  | some m => roundTo 4 (2/5 * confidence_score + 3/5 * m)
  | none => confidence_score

/-- Parsed self-evaluation payload fields used by `run_query` (`retrieve.py`
lines 179-191); each key may be absent. -/
structure SelfEvalResult where
  final_confidence : Option ℚ
  hallucination_risk : Option ℚ
  coverage : Option ℚ
  answer_quality : Option ℚ
deriving DecidableEq, Repr, Inhabited

/-- The model-confidence extraction of `run_query` (`retrieve.py` lines
179-191): take `final_confidence` when present, otherwise synthesize from
the three component scores with `get(key, 0)` defaults, clamped to [0,1]
and rounded to 4 decimals. -/
def synthesize_model_confidence (r : SelfEvalResult) : Option ℚ :=
  match r.final_confidence with
  | some v => some v
  | none =>
      let hallucination_risk := r.hallucination_risk.getD 0
      let coverage := r.coverage.getD 0
      let answer_quality := r.answer_quality.getD 0
      some (roundTo 4 (clamp01
        (answer_quality * (1 - hallucination_risk) * (1/2 + 1/2 * coverage))))

/-- Default primary vector table (`retrieve.py` line 67 and
`custom_rag.py` line 102). -/
def RAG_VECTOR_TABLE_default : String := "documents_v3072"

/-- Default primary match function (`retrieve.py` line 68). -/
def RAG_MATCH_FN_default : String := "match_documentsv3072"

/-- Default legacy table (`custom_rag.py` line 126). -/
def RAG_LEGACY_TABLE_default : String := "document_chunks"

/-- Default legacy match function (`custom_rag.py` line 127). -/
def RAG_LEGACY_MATCH_FN_default : String := "match_document_chunks"

/-- The two-strategy retrieval of `custom_retrieve_answer` (`custom_rag.py`
lines 111-136): a raising primary strategy is caught and treated as an
empty result; an empty result triggers the legacy strategy, whose own
failure is swallowed, leaving the empty list. Each strategy is an
`Except Unit (List P)` parameter (`error` models a raised exception). -/
def retrieve_with_fallback {P : Type} (primary legacy : Except Unit (List P)) : List P :=
  let pairs := match primary with
    | Except.ok l => l
    | Except.error _ => []
  if pairs.isEmpty then
    match legacy with
    | Except.ok l => l
    | Except.error _ => pairs
  else pairs

/-- A persisted `qa_logs` row, restricted to the fields `submit_correction`
reads and writes. -/
structure QALog where
  id : String
  question : String
  status : String
deriving DecidableEq, Repr, Inhabited

/-- A persisted `ta_verified_answers` row (`rag.py` lines 167-173). -/
structure VerifiedAnswerRow where
  course_id : String
  question : String
  answer : String
  embedding : List ℚ
  created_by : String
deriving DecidableEq, Repr, Inhabited

/-- The two tables `submit_correction` touches. -/
structure Database where
  qa_logs : List QALog
  ta_verified_answers : List VerifiedAnswerRow
deriving DecidableEq, Repr, Inhabited

/-- `submit_correction` from `rag.py` lines 131-183 as a state transition on
the two tables: validate the request, look up the QALog, insert exactly one
verified-answer row carrying the QALog's question, and set that QALog's
status to `reviewed`. The embedding provider is the parameter `embed`; a
missing QALog raises in the source (`.single()`) and is caught by the
generic handler, modelled as an error result. -/
def submit_correction (embed : String → List ℚ) (db : Database)
    (user_role user_id qa_log_id verified_answer course_id : String) :
    Except String Database :=
  if qa_log_id = "" ∨ verified_answer = "" ∨ course_id = "" then
    Except.error "Missing question or course_id fields"
  else if ¬ (user_role = "ta" ∨ user_role = "instructor") then
    Except.error "Unauthorized"
  else
    match db.qa_logs.find? (fun l => l.id = qa_log_id) with
    | none => Except.error "Failed to submit correction"
    | some log =>
        Except.ok
          { qa_logs := db.qa_logs.map (fun l =>
              if l.id = qa_log_id then { l with status := "reviewed" } else l)
            ta_verified_answers := db.ta_verified_answers ++
              [{ course_id := course_id
                 question := log.question
                 answer := verified_answer
                 embedding := embed log.question
                 created_by := user_id }] }

/-- Opening brace character (written via its code point). -/
def obrace : Char := Char.ofNat 123

/-- Closing brace character (written via its code point). -/
def cbrace : Char := Char.ofNat 125

/-- Python `\s` whitespace class membership for the characters this
pipeline meets. -/
def isWSChar (c : Char) : Bool :=
  c = ' ' || c = '\t' || c = '\n' || c = '\r' || c = '\x0b' || c = '\x0c'

/-- `str.lstrip()` on characters. -/
def stripLeft (l : List Char) : List Char := l.dropWhile isWSChar

/-- `str.rstrip()` on characters. -/
def stripRight (l : List Char) : List Char := (l.reverse.dropWhile isWSChar).reverse

/-- `str.strip()` on characters. -/
def stripBoth (l : List Char) : List Char := stripRight (stripLeft l)

/-- `endsWithL suf l` is true iff `suf` is a final segment of `l`. -/
def endsWithL (suf l : List Char) : Bool := startsWithL suf.reverse l.reverse

/-- Remove the last `n` characters. -/
def dropLastN (l : List Char) (n : ℕ) : List Char := (l.reverse.drop n).reverse

/-- The code-fence marker (three backticks), as characters. -/
def fenceMark : List Char := ['`', '`', '`']

/-- The code-fence marker with the `json` language tag, as characters. -/
def fenceJsonMark : List Char := ['`', '`', '`', 'j', 's', 'o', 'n']

/-- The fence-stripping substitution of `_safe_parse_eval_json`
(`retrieve.py` line 145) on an already-stripped string: remove a leading
fence marker (with its optional `json` tag) together with the whitespace
after it, and remove a trailing fence marker together with the whitespace
before it — the two anchored alternatives of the `re.sub` pattern. -/
def strip_code_fences (l : List Char) : List Char :=
  let l1 :=
    if startsWithL fenceJsonMark l then stripLeft (l.drop 7)
    else if startsWithL fenceMark l then stripLeft (l.drop 3)
    else l
  if endsWithL fenceMark l1 then stripRight (dropLastN l1 3) else l1

/-- `str.find` for a single character: index of the first occurrence. -/
def findIdxOf (c : Char) (l : List Char) : Option ℕ := l.findIdx? (fun x => x = c)

/-- `str.rfind` for a single character: index of the last occurrence. -/
def rfindIdxOf (c : Char) (l : List Char) : Option ℕ :=
  match l.reverse.findIdx? (fun x => x = c) with
  | none => none
  | some k => some (l.length - 1 - k)

/-- Result of the defensive parse: a decoded value or the error payload
carrying the raw text (`{"raw": raw, "parse_error": ...}`). -/
inductive EvalParse (J : Type) where
  | ok (value : J)
  | errPayload (raw : List Char)
deriving DecidableEq, Repr

/-- The candidate loop of `_safe_parse_eval_json`: first successful
`json.loads` wins. -/
def tryLoads {J : Type} (loads : List Char → Option J) : List (List Char) → Option J
  | [] => none
  | c :: rest =>
      match loads c with
      | some j => some j
      | none => tryLoads loads rest

/-- `_safe_parse_eval_json(raw)` from `retrieve.py` lines 142-157 (Lean
identifiers cannot start with an underscore). The JSON decoder `json.loads`
is the explicit parameter `loads` (`none` models a raised decode error):
strip and de-fence the text, slice from the first `\x7b` to the last
`\x7d` when that span is non-trivial, try the decoder on the candidates,
and fall back to the error payload carrying the raw input. -/
def safe_parse_eval_json {J : Type} (loads : List Char → Option J)
    (raw : List Char) : EvalParse J :=
  let cleaned := strip_code_fences (stripBoth raw)
  let cands :=
    match findIdxOf obrace cleaned, rfindIdxOf cbrace cleaned with
    | some s, some e =>
        if s < e then [(cleaned.drop s).take (e + 1 - s), cleaned] else [cleaned]
    | some _, none => [cleaned]
    | none, _ => [cleaned]
  match tryLoads loads cands with
  | some j => EvalParse.ok j
  | none => EvalParse.errPayload raw

/-- Wrapping a text in a ```json code fence (marker, newline, text,
newline, marker), the shape the specification's round-trip claim
quantifies over. -/
def wrap_code_fence (t : List Char) : List Char :=
  fenceJsonMark ++ ('\n' :: (t ++ ('\n' :: fenceMark)))

/-- A concrete decoder fixture for the defensive parser: decodes exactly
one JSON object text to `1`. -/
def loadsW : List Char → Option Nat :=
  fun l => if l = obrace :: ("\x22a\x22: 1".data ++ [cbrace]) then some 1 else none

/-- Concrete database fixture for exercising `submit_correction`. -/
def dbW : Database :=
  { qa_logs := [{ id := "L1", question := "What is X", status := "answered" }]
    ta_verified_answers := [] }

/-- The database produced by a successful correction submission on `dbW`. -/
def db2W : Database :=
  { qa_logs := [{ id := "L1", question := "What is X", status := "reviewed" }]
    ta_verified_answers := [{ course_id := "c1"
                              question := "What is X"
                              answer := "X is Y"
                              embedding := [2]
                              created_by := "u1" }] }

/-- A constant embedding provider for the fixture. -/
def embedW : String → List ℚ := fun _ => [2]

/-- A concrete pdf chunk fixture. -/
def chunkW : Chunk :=
  { content := "c"
    metadata := { mtype := some "pdf"
                  file_name := some "notes.pdf"
                  page := some 1
                  start_time := none
                  course_id := some "cs" }
    document_id := some "d1" }

/-- A concrete verified-answer fixture. -/
def vaW : VerifiedAnswer := { question := "When is HW due", answer := "Friday" }

/-- A chunk fixture with the given content and empty metadata. -/
def docW (s : String) : Chunk :=
  { content := s
    metadata := { mtype := none, file_name := none, page := none, start_time := none,
                  course_id := none }
    document_id := none }

/-- The ordering property the specification claims of a citation list:
every citation of type `verified` precedes every citation of type
pdf/vtt/video. -/
def verified_precede (l : List Citation) : Prop :=
  ∀ i j : ℕ, ∀ hi : i < l.length, ∀ hj : j < l.length,
    (l.get ⟨i, hi⟩).ctype = "verified" →
    (l.get ⟨j, hj⟩).ctype ∈ (["pdf", "vtt", "video"] : List String) → i < j

/-! ## Helper lemmas -/

theorem round_mono_q {x y : ℚ} (h : x ≤ y) : round x ≤ round y := by
  rw [round_eq, round_eq]
  exact Int.floor_mono (by linarith)

theorem roundTo_nonneg {n : ℕ} {q : ℚ} (h : 0 ≤ q) : 0 ≤ roundTo n q := by
  unfold roundTo
  have h1 : (0 : ℤ) ≤ round (q * 10 ^ n) := by
    have h2 := round_mono_q (show (0 : ℚ) ≤ q * 10 ^ n by positivity)
    simpa using h2
  have h3 : (0 : ℚ) ≤ ((round (q * 10 ^ n) : ℤ) : ℚ) := by exact_mod_cast h1
  positivity

theorem roundTo_le_one {n : ℕ} {q : ℚ} (h : q ≤ 1) : roundTo n q ≤ 1 := by
  unfold roundTo
  have hp : (0 : ℚ) < 10 ^ n := by positivity
  have h1 : round (q * 10 ^ n) ≤ round ((10 : ℚ) ^ n) :=
    round_mono_q (by nlinarith)
  have h2 : round ((10 : ℚ) ^ n) = (10 ^ n : ℤ) := by
    rw [show ((10 : ℚ) ^ n) = ((10 ^ n : ℤ) : ℚ) by push_cast; ring]
    exact round_intCast _
  rw [div_le_one hp]
  calc ((round (q * 10 ^ n) : ℤ) : ℚ) ≤ ((10 ^ n : ℤ) : ℚ) := by
        exact_mod_cast h1.trans_eq h2
    _ = 10 ^ n := by push_cast; ring

theorem clamp01_nonneg (q : ℚ) : 0 ≤ clamp01 q := le_max_left 0 _

theorem clamp01_le_one (q : ℚ) : clamp01 q ≤ 1 := max_le (by norm_num) (min_le_left 1 q)

theorem heuristic_confidence_mem (answer : String) (c : List Chunk)
    (v : List VerifiedAnswer) :
    0 ≤ calculate_heuristic_confidence answer c v ∧
      calculate_heuristic_confidence answer c v ≤ 1 := by
  simp only [calculate_heuristic_confidence]
  exact ⟨roundTo_nonneg (clamp01_nonneg _), roundTo_le_one (clamp01_le_one _)⟩

theorem roundTo_two_eq_div_100 (q : ℚ) :
    roundTo 2 q = ((round (q * 100) : ℤ) : ℚ) / 100 := by
  norm_num [roundTo]

theorem heuristic_confidence_hundredth (answer : String) (c : List Chunk)
    (v : List VerifiedAnswer) :
    ∃ k : ℤ, calculate_heuristic_confidence answer c v = (k : ℚ) / 100 := by
  simp only [calculate_heuristic_confidence]
  exact ⟨_, roundTo_two_eq_div_100 _⟩

/-! ## Claim theorems -/

/-- C1 (counterexample): on the answer text ")(", which contains both
parenthesis characters but no parenthesized substring (no left parenthesis
occurs before a right one), `calculate_heuristic_confidence` still adds the
0.1 citation bonus and yields 0.6, while the claimed formula yields 0.5. -/
theorem C1_heuristic_citation_counterexample :
    calculate_heuristic_confidence ")(" [] [] = 3/5 ∧
    spec_heuristic_confidence ")(" [] [] = 1/2 ∧
    hasParenPair ")(".data = false ∧
    calculate_heuristic_confidence ")(" [] [] ≠ spec_heuristic_confidence ")(" [] [] := by
  have h1 : calculate_heuristic_confidence ")(" [] [] = 3/5 := by
    simp +decide only [calculate_heuristic_confidence]
    norm_num [roundTo, clamp01, round_eq]
  have h2 : spec_heuristic_confidence ")(" [] [] = 1/2 := by
    simp +decide only [spec_heuristic_confidence]
    norm_num [roundTo, clamp01, round_eq]
  exact ⟨h1, h2, by decide, by rw [h1, h2]; norm_num⟩

/-- C1 (amended): the heuristic confidence equals the claimed formula with
the citation bonus condition read as the code's rough check — the answer
contains a `(` character and a `)` character, in any order; the result is
always in [0,1], and is determined by the answer text and the emptiness of
the two context lists (hence by their sizes). -/
theorem C1_heuristic_confidence (answer : String) (c c2 : List Chunk)
    (v v2 : List VerifiedAnswer) (hc : c.length = c2.length)
    (hv : v.length = v2.length) :
    calculate_heuristic_confidence answer c v =
      roundTo 2 (clamp01 ((1/2 : ℚ)
        + (if uncertainty_phrases.any
              (fun p => containsSub p.data (lowerStr answer).data) then -(3/10) else 0)
        + (if 0 < c.length then 1/5 else 0)
        + (if 0 < v.length then 1/5 else 0)
        + (if answer.data.contains '(' && answer.data.contains ')' then 1/10 else 0))) ∧
    0 ≤ calculate_heuristic_confidence answer c v ∧
    calculate_heuristic_confidence answer c v ≤ 1 ∧
    calculate_heuristic_confidence answer c v =
      calculate_heuristic_confidence answer c2 v2 := by
  obtain ⟨hm0, hm1⟩ := heuristic_confidence_mem answer c v
  refine ⟨?_, hm0, hm1, ?_⟩
  · simp only [calculate_heuristic_confidence]
    split_ifs <;> norm_num
  · simp only [calculate_heuristic_confidence, hc, hv]

/-- C1 witness. -/
theorem C1_heuristic_confidence_witness :
    calculate_heuristic_confidence "ok (a)" [] [] =
      roundTo 2 (clamp01 ((1/2 : ℚ)
        + (if uncertainty_phrases.any
              (fun p => containsSub p.data (lowerStr "ok (a)").data) then -(3/10) else 0)
        + (if 0 < ([] : List Chunk).length then 1/5 else 0)
        + (if 0 < ([] : List VerifiedAnswer).length then 1/5 else 0)
        + (if "ok (a)".data.contains '(' && "ok (a)".data.contains ')' then 1/10 else 0))) ∧
    0 ≤ calculate_heuristic_confidence "ok (a)" [] [] ∧
    calculate_heuristic_confidence "ok (a)" [] [] ≤ 1 ∧
    calculate_heuristic_confidence "ok (a)" [] [] =
      calculate_heuristic_confidence "ok (a)" [] [] :=
  C1_heuristic_confidence "ok (a)" [] [] [] [] rfl rfl

/-- C2: the combined confidence of `run_query` is `round(0.4*h + 0.6*m, 4)`
when a model self-evaluation score is available, and the heuristic score
`h` alone when the self-evaluation is disabled, fails, or yields no
confidence (all modelled as `none`). -/
theorem C2_combined_confidence (h m : ℚ) :
    combined_confidence h (some m) = roundTo 4 ((2/5) * h + (3/5) * m) ∧
    combined_confidence h none = h :=
  ⟨rfl, rfl⟩

/-- C8: when `final_confidence` is absent but the three component scores are
present, the synthesized model confidence is
`answer_quality * (1 - hallucination_risk) * (0.5 + 0.5 * coverage)`,
clamped to [0,1] and rounded to 4 decimal places. -/
theorem C8_synthesized_confidence (r : SelfEvalResult) (hr cov q : ℚ)
    (h0 : r.final_confidence = none) (h1 : r.hallucination_risk = some hr)
    (h2 : r.coverage = some cov) (h3 : r.answer_quality = some q) :
    synthesize_model_confidence r =
      some (roundTo 4 (clamp01 (q * (1 - hr) * (1/2 + 1/2 * cov)))) := by
  simp only [synthesize_model_confidence, h0, h1, h2, h3, Option.getD_some]

/-- C8 witness. -/
theorem C8_synthesized_confidence_witness :
    synthesize_model_confidence ⟨none, some (1/5), some (1/2), some (4/5)⟩ =
      some (roundTo 4 (clamp01 ((4/5 : ℚ) * (1 - 1/5) * (1/2 + 1/2 * (1/2))))) :=
  C8_synthesized_confidence ⟨none, some (1/5), some (1/2), some (4/5)⟩
    (1/5) (1/2) (4/5) rfl rfl rfl rfl

/-- C10: the legacy model-based confidence scorer: a parsed model value is
clamped to [0,1], multiplied by 0.3 when both context lists are empty or
boosted by 1.1 (capped at 1.0) when a verified answer exists, then rounded
to 2 decimals; a provider failure or unparseable value falls back to the
heuristic score; in every case the result lies in [0,1] and is a multiple
of 1/100. -/
theorem C10_confidence_score (m : ℚ) (question answer : String)
    (c : List Chunk) (v : List VerifiedAnswer) :
    calculate_confidence_score (some m) question answer c v =
      roundTo 2 (if c.length = 0 ∧ v.length = 0 then clamp01 m * (3/10)
        else if 0 < v.length then min 1 (clamp01 m * (11/10))
        else clamp01 m) ∧
    calculate_confidence_score none question answer c v =
      calculate_heuristic_confidence answer c v ∧
    (0 ≤ calculate_confidence_score (some m) question answer c v ∧
      calculate_confidence_score (some m) question answer c v ≤ 1) ∧
    (0 ≤ calculate_confidence_score none question answer c v ∧
      calculate_confidence_score none question answer c v ≤ 1) ∧
    (∃ k : ℤ, calculate_confidence_score (some m) question answer c v = (k : ℚ) / 100) ∧
    (∃ k : ℤ, calculate_confidence_score none question answer c v = (k : ℚ) / 100) := by
  have hcl0 : 0 ≤ clamp01 m := clamp01_nonneg m
  have hcl1 : clamp01 m ≤ 1 := clamp01_le_one m
  have hadj : 0 ≤ (if c.length = 0 ∧ v.length = 0 then clamp01 m * (3/10)
        else if 0 < v.length then min 1 (clamp01 m * (11/10))
        else clamp01 m) ∧
      (if c.length = 0 ∧ v.length = 0 then clamp01 m * (3/10)
        else if 0 < v.length then min 1 (clamp01 m * (11/10))
        else clamp01 m) ≤ 1 := by
    split_ifs
    · constructor <;> nlinarith
    · exact ⟨le_min (by norm_num) (by positivity), min_le_left _ _⟩
    · exact ⟨hcl0, hcl1⟩
  refine ⟨rfl, rfl, ⟨?_, ?_⟩, heuristic_confidence_mem answer c v, ?_, ?_⟩
  · exact roundTo_nonneg hadj.1
  · exact roundTo_le_one hadj.2
  · exact ⟨_, roundTo_two_eq_div_100 _⟩
  · exact heuristic_confidence_hundredth answer c v

theorem filterMap_id_ne_nil {α : Type} (scores : List (Option α)) (hs : scores ≠ [])
    (hnum : ∀ s ∈ scores, s ≠ none) : scores.filterMap id ≠ [] := by
  cases scores with
  | nil => exact absurd rfl hs
  | cons a rest =>
    cases a with
    | none => exact absurd rfl (hnum none (List.mem_cons_self _ _))
    | some v => simp

/-- C3: on a non-empty document list with all-numeric scores, the
retrieval-only confidence blends the score component — direct clamped
average when the maximum score is at most 1.5, else the average of
`1/(1+s)` — with the lexical coverage fraction of the distinct long query
tokens found in the concatenated lowercased retrieved text, as
`0.6*score + 0.4*coverage`, clamped to [0,1] and rounded to 4 decimals. -/
theorem C3_compute_confidence (query : String) (docs : List Chunk)
    (scores : List (Option ℚ)) (hd : docs ≠ []) (hs : scores ≠ [])
    (hnum : ∀ s ∈ scores, s ≠ none) :
    compute_confidence query docs scores =
      roundTo 4 (clamp01 ((3/5) *
        (if listMax (scores.filterMap id) ≤ 3/2
          then avgQ ((scores.filterMap id).map clamp01)
          else avgQ ((scores.filterMap id).map (fun s => 1 / (1 + max s 0)))) +
        (2/5) * (if (queryTokens query).length = 0 then 0
          else (((queryTokens query).filter (fun t => containsSub t
              (String.intercalate " " (docs.map (fun d => lowerStr d.content))).data)).length : ℚ)
            / ((queryTokens query).length : ℚ)))) := by
  have hu := filterMap_id_ne_nil scores hs hnum
  have hde : docs.isEmpty = false := by
    cases docs with
    | nil => exact absurd rfl hd
    | cons a as => rfl
  have hue : (scores.filterMap id).isEmpty = false := by
    cases hfm : scores.filterMap id with
    | nil => exact absurd hfm hu
    | cons a as => rfl
  simp only [compute_confidence, hde, hue, Bool.false_eq_true, if_false]

/-- C3 witness: the two worked examples of the claim — similarity scores
[0.9, 0.8] with coverage 1/2 give 0.71, and distance scores [1.0, 3.0]
with coverage 1 give 0.625. -/
theorem C3_compute_confidence_witness :
    compute_confidence "alpha beta" [docW "alpha text here", docW "more alpha"]
      [some (9/10), some (4/5)] = 71/100 ∧
    compute_confidence "alpha beta" [docW "alpha beta notes", docW "beta alpha"]
      [some 1, some 3] = 5/8 := by
  constructor
  · rw [C3_compute_confidence "alpha beta" _ _ (by decide) (by decide) (by decide)]
    have hq : queryTokens "alpha beta" = ["alpha".data, "beta".data] := by decide
    rw [hq]
    simp +decide only [List.filterMap, listMax, List.foldl, avgQ, List.map, List.sum_cons,
      List.sum_nil, List.filter, List.length]
    norm_num [clamp01, roundTo, round_eq, max_def, min_def]
  · rw [C3_compute_confidence "alpha beta" _ _ (by decide) (by decide) (by decide)]
    have hq : queryTokens "alpha beta" = ["alpha".data, "beta".data] := by decide
    rw [hq]
    simp +decide only [List.filterMap, listMax, List.foldl, avgQ, List.map, List.sum_cons,
      List.sum_nil, List.filter, List.length]
    norm_num [clamp01, roundTo, round_eq, max_def, min_def]

/-- C4 (counterexample): with both context lists empty, `generate_answer`
still returns whatever the generation provider produces — here a constant
provider returning "The deadline is Friday." — rather than the fixed
fallback phrase: the source builds the prompt and invokes the provider
unconditionally. -/
theorem C4_no_short_circuit_counterexample :
    (generate_answer (fun _ => "The deadline is Friday.") none "q" [] [] "sp").answer
      = "The deadline is Friday." ∧
    "The deadline is Friday." ≠ fallback_phrase :=
  ⟨rfl, by decide⟩

/-- C4 (amended): the empty-context short circuit lives in
`custom_retrieve_answer`, not in `generate_answer`, and its fixed phrase is
"I couldn't find relevant course materials to answer that.", not the
prompt's fallback phrase: with both lists empty, `custom_retrieve_answer`
returns that phrase with empty citations, independently of the generation
provider, while `generate_answer` always returns the provider's output on
the built prompt. -/
theorem C4_empty_context_short_circuit (gen gen2 : String → String) (sp q : String) :
    custom_retrieve_answer gen sp q [] [] =
      { answer := custom_fallback_phrase, citations := [], sources := [] } ∧
    custom_retrieve_answer gen sp q [] [] = custom_retrieve_answer gen2 sp q [] [] ∧
    custom_fallback_phrase ≠ fallback_phrase ∧
    (generate_answer gen none q [] [] sp).answer = gen (build_prompt sp "" q) :=
  ⟨rfl, rfl, by decide, rfl⟩

/-- C5 (counterexample): with one pdf chunk and one verified answer,
`extract_citations` emits the chunk citation first and the verified
citation second, so the verified citation does not precede the pdf one. -/
theorem C5_order_counterexample :
    ¬ verified_precede (extract_citations "a" [chunkW] [vaW]) := by
  intro h
  have h10 := h 1 0 (by decide) (by decide) (by decide) (by decide)
  exact absurd h10 (by decide)

theorem extract_citations_entry (answer : String) (chunks : List Chunk)
    (verified : List VerifiedAnswer) (k : ℕ)
    (hk : k < (extract_citations answer chunks verified).length) :
    (∃ h : k < chunks.length,
      (extract_citations answer chunks verified).get ⟨k, hk⟩ =
        chunk_citation (chunks.get ⟨k, h⟩)) ∨
    (chunks.length ≤ k ∧
      ((extract_citations answer chunks verified).get ⟨k, hk⟩).ctype = "verified") := by
  by_cases h : k < chunks.length
  · left
    refine ⟨h, ?_⟩
    have hm : k < (chunks.map chunk_citation).length := by simpa using h
    simp only [extract_citations, List.get_eq_getElem]
    rw [List.getElem_append_left hm]
    simp
  · right
    push_neg at h
    refine ⟨h, ?_⟩
    have hm : (chunks.map chunk_citation).length ≤ k := by simpa using h
    simp only [extract_citations, List.get_eq_getElem]
    rw [List.getElem_append_right hm]
    simp [verified_citation]

/-- C5 (amended): the citation list is the chunk citations in chunk order
followed by the verified citations in verified order — the reverse of the
prompt-assembly order: whenever the chunks carry pdf/vtt/video metadata
types, every pdf/vtt/video citation precedes every `verified` citation. -/
theorem C5_citation_order (answer : String) (chunks : List Chunk)
    (verified : List VerifiedAnswer)
    (hty : ∀ c ∈ chunks,
      c.metadata.mtype.getD "pdf" ∈ (["pdf", "vtt", "video"] : List String)) :
    extract_citations answer chunks verified =
      chunks.map chunk_citation ++ verified.map verified_citation ∧
    (∀ i j : ℕ, ∀ hi : i < (extract_citations answer chunks verified).length,
      ∀ hj : j < (extract_citations answer chunks verified).length,
      ((extract_citations answer chunks verified).get ⟨i, hi⟩).ctype ∈
        (["pdf", "vtt", "video"] : List String) →
      ((extract_citations answer chunks verified).get ⟨j, hj⟩).ctype = "verified" →
      i < j) := by
  refine ⟨rfl, ?_⟩
  intro i j hi hj hic hjc
  have hilt : i < chunks.length := by
    rcases extract_citations_entry answer chunks verified i hi with ⟨h, _⟩ | ⟨_, heq⟩
    · exact h
    · rw [heq] at hic
      exact absurd hic (by decide)
  have hjge : chunks.length ≤ j := by
    rcases extract_citations_entry answer chunks verified j hj with ⟨h, heq⟩ | ⟨hge, _⟩
    · exfalso
      rw [heq] at hjc
      have hmem := hty (chunks.get ⟨j, h⟩) (chunks.get_mem j h)
      rw [show (chunk_citation (chunks.get ⟨j, h⟩)).ctype
          = (chunks.get ⟨j, h⟩).metadata.mtype.getD "pdf" from rfl] at hjc
      rw [hjc] at hmem
      exact absurd hmem (by decide)
    · exact hge
  omega

/-- C5 witness. -/
theorem C5_citation_order_witness :
    extract_citations "a" [chunkW] [vaW] =
      [chunkW].map chunk_citation ++ [vaW].map verified_citation ∧
    (∀ i j : ℕ,
      ∀ hi : i < (extract_citations "a" [chunkW] [vaW]).length,
      ∀ hj : j < (extract_citations "a" [chunkW] [vaW]).length,
      ((extract_citations "a" [chunkW] [vaW]).get ⟨i, hi⟩).ctype ∈
        (["pdf", "vtt", "video"] : List String) →
      ((extract_citations "a" [chunkW] [vaW]).get ⟨j, hj⟩).ctype = "verified" →
      i < j) :=
  C5_citation_order "a" [chunkW] [vaW] (by decide)

/-- C6: a primary retrieval strategy that raises or returns an empty result
is transparently replaced by the legacy strategy — the caller sees the same
list as when the primary serves it — and two empty (or failed) strategies
yield the empty list rather than an error; the legacy strategy uses a
different table and query function by default. -/
theorem C6_retrieval_fallback {P : Type} (primary : Except Unit (List P))
    (l : List P) (h : primary = Except.error () ∨ primary = Except.ok []) :
    retrieve_with_fallback primary (Except.ok l) = l ∧
    (∀ legacy : Except Unit (List P), l ≠ [] →
      retrieve_with_fallback (Except.ok l) legacy = l) ∧
    retrieve_with_fallback primary (Except.ok ([] : List P)) = [] ∧
    retrieve_with_fallback primary (Except.error ()) = [] ∧
    RAG_LEGACY_TABLE_default ≠ RAG_VECTOR_TABLE_default ∧
    RAG_LEGACY_MATCH_FN_default ≠ RAG_MATCH_FN_default := by
  have hp : ∀ res : Except Unit (List P), retrieve_with_fallback primary res =
      (match res with | Except.ok l2 => l2 | Except.error _ => []) := by
    intro res
    rcases h with h | h <;> subst h <;> cases res <;> rfl
  refine ⟨hp _, ?_, hp _, hp _, by decide, by decide⟩
  intro legacy hl
  have hne : l.isEmpty = false := by
    cases l with
    | nil => exact absurd rfl hl
    | cons a as => rfl
  simp [retrieve_with_fallback, hne]

/-- C6 witness. -/
theorem C6_retrieval_fallback_witness :
    retrieve_with_fallback (Except.error ()) (Except.ok [(1 : ℕ)]) = [1] ∧
    retrieve_with_fallback (Except.ok [(1 : ℕ)]) (Except.error ()) = [1] ∧
    retrieve_with_fallback (Except.error ()) (Except.ok ([] : List ℕ)) = [] := by
  have h := C6_retrieval_fallback (Except.error ()) [(1 : ℕ)] (Or.inl rfl)
  exact ⟨h.1, h.2.1 (Except.error ()) (by decide), h.2.2.1⟩

theorem find?_map_reviewed (qid : String) (ls : List QALog) (log : QALog)
    (h : ls.find? (fun l => l.id = qid) = some log) :
    (ls.map (fun l => if l.id = qid then { l with status := "reviewed" } else l)).find?
      (fun l => l.id = qid) = some { log with status := "reviewed" } := by
  induction ls with
  | nil => simp [List.find?] at h
  | cons a rest ih =>
    by_cases ha : a.id = qid
    · rw [List.find?_cons_of_pos rest (by simp [ha])] at h
      obtain rfl : a = log := Option.some.inj h
      simp only [List.map_cons, if_pos ha]
      rw [List.find?_cons_of_pos _ (by simp [ha])]
    · rw [List.find?_cons_of_neg rest (by simp [ha])] at h
      simp only [List.map_cons, if_neg ha]
      rw [List.find?_cons_of_neg _ (by simp [ha])]
      exact ih h

/-- C7: a successful correction submission appends exactly one new
verified-answer row, whose `question` equals the referenced QALog's
question, and flips that QALog's status to `reviewed`. -/
theorem C7_submit_correction (embed : String → List ℚ) (db db2 : Database)
    (role uid qid ans cid : String) (log : QALog)
    (hfind : db.qa_logs.find? (fun l => l.id = qid) = some log)
    (hok : submit_correction embed db role uid qid ans cid = Except.ok db2) :
    db2.ta_verified_answers = db.ta_verified_answers ++
      [{ course_id := cid, question := log.question, answer := ans,
         embedding := embed log.question, created_by := uid }] ∧
    db2.ta_verified_answers.length = db.ta_verified_answers.length + 1 ∧
    db2.qa_logs.find? (fun l => l.id = qid) = some { log with status := "reviewed" } := by
  unfold submit_correction at hok
  split_ifs at hok
  rw [hfind] at hok
  injection hok with hdb
  subst hdb
  refine ⟨rfl, by simp, ?_⟩
  exact find?_map_reviewed qid db.qa_logs log hfind

/-- C7 witness. -/
theorem C7_submit_correction_witness :
    db2W.ta_verified_answers = dbW.ta_verified_answers ++
      [{ course_id := "c1", question := "What is X", answer := "X is Y",
         embedding := embedW "What is X", created_by := "u1" }] ∧
    db2W.ta_verified_answers.length = dbW.ta_verified_answers.length + 1 ∧
    db2W.qa_logs.find? (fun l => l.id = "L1") =
      some { id := "L1", question := "What is X", status := "reviewed" } :=
  C7_submit_correction embedW dbW db2W "ta" "u1" "L1" "X is Y" "c1"
    { id := "L1", question := "What is X", status := "answered" } (by decide) rfl

theorem startsWithL_append_self (p l : List Char) : startsWithL p (p ++ l) = true := by
  induction p with
  | nil => rfl
  | cons a as ih => simp [startsWithL, ih]

theorem startsWithL_cons_ne {a b : Char} (as bs : List Char) (h : a ≠ b) :
    startsWithL (a :: as) (b :: bs) = false := by
  simp [startsWithL, h]

theorem stripLeft_ws_append (l : List Char) :
    ∀ pre : List Char, (∀ c ∈ pre, isWSChar c = true) →
      stripLeft (pre ++ l) = stripLeft l
  | [], _ => rfl
  | a :: as, h => by
      have ha : isWSChar a = true := h a (List.mem_cons_self _ _)
      have ih := stripLeft_ws_append l as (fun c hc => h c (List.mem_cons_of_mem _ hc))
      simp only [List.cons_append, stripLeft, List.dropWhile_cons, ha, if_true]
      exact ih

theorem stripLeft_cons_of_not_ws {c : Char} (l : List Char)
    (h : isWSChar c = false) : stripLeft (c :: l) = c :: l := by
  simp [stripLeft, List.dropWhile_cons, h]

theorem stripLeft_cons_of_ws {c : Char} (l : List Char)
    (h : isWSChar c = true) : stripLeft (c :: l) = stripLeft l := by
  simp [stripLeft, List.dropWhile_cons, h]

theorem stripRight_eq (l : List Char) : stripRight l = (stripLeft l.reverse).reverse := rfl

theorem stripRight_append_ws (l post : List Char)
    (h : ∀ c ∈ post, isWSChar c = true) : stripRight (l ++ post) = stripRight l := by
  rw [stripRight_eq, stripRight_eq, List.reverse_append,
    stripLeft_ws_append l.reverse post.reverse (fun c hc => h c (List.mem_reverse.mp hc))]

theorem stripRight_concat_of_not_ws (l : List Char) {c : Char}
    (h : isWSChar c = false) : stripRight (l ++ [c]) = l ++ [c] := by
  rw [stripRight_eq, List.reverse_append]
  simp only [List.reverse_cons, List.reverse_nil, List.nil_append, List.singleton_append]
  rw [stripLeft_cons_of_not_ws _ h]
  simp

theorem strip_code_fences_obj {mid : List Char} :
    strip_code_fences (obrace :: (mid ++ [cbrace])) = obrace :: (mid ++ [cbrace]) := by
  unfold strip_code_fences
  have h1 : startsWithL fenceJsonMark (obrace :: (mid ++ [cbrace])) = false := by
    show startsWithL ('`' :: ['`', '`', 'j', 's', 'o', 'n']) (obrace :: (mid ++ [cbrace])) = false
    exact startsWithL_cons_ne _ _ (by decide)
  have h2 : startsWithL fenceMark (obrace :: (mid ++ [cbrace])) = false := by
    show startsWithL ('`' :: ['`', '`']) (obrace :: (mid ++ [cbrace])) = false
    exact startsWithL_cons_ne _ _ (by decide)
  have h3 : endsWithL fenceMark (obrace :: (mid ++ [cbrace])) = false := by
    unfold endsWithL
    rw [show (obrace :: (mid ++ [cbrace])).reverse = cbrace :: (mid.reverse ++ [obrace]) by simp]
    show startsWithL ('`' :: ['`', '`']) (cbrace :: (mid.reverse ++ [obrace])) = false
    exact startsWithL_cons_ne _ _ (by decide)
  simp only [h1, h2, h3, Bool.false_eq_true, if_false]

theorem stripBoth_obj (pre mid post : List Char)
    (hpre : ∀ c ∈ pre, isWSChar c = true) (hpost : ∀ c ∈ post, isWSChar c = true) :
    stripBoth (pre ++ (obrace :: (mid ++ [cbrace])) ++ post)
      = obrace :: (mid ++ [cbrace]) := by
  unfold stripBoth
  rw [List.append_assoc, stripLeft_ws_append _ pre hpre]
  rw [show (obrace :: (mid ++ [cbrace])) ++ post = obrace :: ((mid ++ [cbrace]) ++ post)
    from List.cons_append _ _ _]
  rw [stripLeft_cons_of_not_ws _ (by decide)]
  rw [show obrace :: ((mid ++ [cbrace]) ++ post) = (obrace :: (mid ++ [cbrace])) ++ post
    from (List.cons_append _ _ _).symm]
  rw [stripRight_append_ws _ post hpost]
  rw [show obrace :: (mid ++ [cbrace]) = (obrace :: mid) ++ [cbrace] from
    (List.cons_append _ _ _).symm]
  rw [stripRight_concat_of_not_ws _ (by decide)]

theorem stripBoth_wrapped (t : List Char) :
    stripBoth (wrap_code_fence t) = wrap_code_fence t := by
  have h1 : stripLeft (wrap_code_fence t) = wrap_code_fence t := by
    rw [show wrap_code_fence t
        = '`' :: (['`', '`', 'j', 's', 'o', 'n'] ++ ('\n' :: (t ++ ('\n' :: fenceMark))))
      from rfl]
    exact stripLeft_cons_of_not_ws _ (by decide)
  have h2 : stripRight (wrap_code_fence t) = wrap_code_fence t := by
    rw [show wrap_code_fence t
        = (fenceJsonMark ++ ('\n' :: (t ++ ['\n', '`', '`']))) ++ ['`'] by
      simp [wrap_code_fence, fenceMark, fenceJsonMark]]
    exact stripRight_concat_of_not_ws _ (by decide)
  unfold stripBoth
  rw [h1, h2]

theorem strip_code_fences_wrapped (pre mid post : List Char)
    (hpre : ∀ c ∈ pre, isWSChar c = true) (hpost : ∀ c ∈ post, isWSChar c = true) :
    strip_code_fences
        (wrap_code_fence (pre ++ (obrace :: (mid ++ [cbrace])) ++ post))
      = obrace :: (mid ++ [cbrace]) := by
  unfold strip_code_fences
  have hstart : startsWithL fenceJsonMark
      (wrap_code_fence (pre ++ (obrace :: (mid ++ [cbrace])) ++ post)) = true :=
    startsWithL_append_self _ _
  have hdrop : (wrap_code_fence (pre ++ (obrace :: (mid ++ [cbrace])) ++ post)).drop 7
      = '\n' :: ((pre ++ (obrace :: (mid ++ [cbrace])) ++ post) ++ ('\n' :: fenceMark)) :=
    List.drop_left' (by decide)
  have hl1 : stripLeft ('\n' :: ((pre ++ (obrace :: (mid ++ [cbrace])) ++ post)
        ++ ('\n' :: fenceMark)))
      = obrace :: ((mid ++ [cbrace]) ++ (post ++ ('\n' :: fenceMark))) := by
    rw [stripLeft_cons_of_ws _ (by decide)]
    rw [List.append_assoc, List.append_assoc, stripLeft_ws_append _ pre hpre]
    rw [show (obrace :: (mid ++ [cbrace])) ++ (post ++ ('\n' :: fenceMark))
        = obrace :: ((mid ++ [cbrace]) ++ (post ++ ('\n' :: fenceMark)))
      from List.cons_append _ _ _]
    exact stripLeft_cons_of_not_ws _ (by decide)
  have hws : ∀ c ∈ post ++ ['\n'], isWSChar c = true := by
    intro c hc
    rcases List.mem_append.mp hc with h | h
    · exact hpost c h
    · simp only [List.mem_singleton] at h
      subst h
      decide
  simp only [hstart, if_true, hdrop, hl1]
  rw [show obrace :: ((mid ++ [cbrace]) ++ (post ++ ('\n' :: fenceMark)))
      = (obrace :: ((mid ++ [cbrace]) ++ (post ++ ['\n']))) ++ fenceMark by
    simp [fenceMark]]
  have hend : endsWithL fenceMark
      ((obrace :: ((mid ++ [cbrace]) ++ (post ++ ['\n']))) ++ fenceMark) = true := by
    unfold endsWithL
    rw [List.reverse_append]
    exact startsWithL_append_self _ _
  rw [if_pos hend]
  have hdln : dropLastN
      ((obrace :: ((mid ++ [cbrace]) ++ (post ++ ['\n']))) ++ fenceMark) 3
      = obrace :: ((mid ++ [cbrace]) ++ (post ++ ['\n'])) := by
    unfold dropLastN
    rw [List.reverse_append, List.drop_left' (by decide), List.reverse_reverse]
  rw [hdln]
  rw [show obrace :: ((mid ++ [cbrace]) ++ (post ++ ['\n']))
      = (obrace :: (mid ++ [cbrace])) ++ (post ++ ['\n']) from rfl]
  rw [stripRight_append_ws _ _ hws]
  rw [show obrace :: (mid ++ [cbrace]) = (obrace :: mid) ++ [cbrace] from rfl]
  rw [stripRight_concat_of_not_ws _ (by decide)]

theorem tryLoads_all_none {J : Type} (loads : List Char → Option J)
    (hfail : ∀ c, loads c = none) :
    ∀ cs : List (List Char), tryLoads loads cs = none
  | [] => rfl
  | c :: rest => by
      simp [tryLoads, hfail c, tryLoads_all_none loads hfail rest]

theorem safe_parse_of_cleaned_obj {J : Type} (loads : List Char → Option J)
    (raw mid : List Char) (j : J)
    (hclean : strip_code_fences (stripBoth raw) = obrace :: (mid ++ [cbrace]))
    (hload : loads (obrace :: (mid ++ [cbrace])) = some j) :
    safe_parse_eval_json loads raw = EvalParse.ok j := by
  have hfi : findIdxOf obrace (obrace :: (mid ++ [cbrace])) = some 0 := by
    simp [findIdxOf, List.findIdx?_cons]
  have hri : rfindIdxOf cbrace (obrace :: (mid ++ [cbrace])) = some (mid.length + 1) := by
    unfold rfindIdxOf
    simp [List.findIdx?_cons]
  have hslice : List.take (mid.length + 1 + 1 - 0) (List.drop 0 (obrace :: (mid ++ [cbrace])))
      = obrace :: (mid ++ [cbrace]) := by
    rw [List.drop_zero]
    rw [show mid.length + 1 + 1 - 0 = (obrace :: (mid ++ [cbrace])).length by
      simp only [List.length_cons, List.length_append, List.length_singleton,
        List.length_nil]
      omega]
    exact List.take_length _
  unfold safe_parse_eval_json
  simp only [hclean, hfi, hri]
  rw [if_pos (show 0 < mid.length + 1 by omega)]
  rw [hslice]
  simp [tryLoads, hload]

theorem safe_parse_all_fail {J : Type} (loads : List Char → Option J)
    (raw : List Char) (hfail : ∀ c, loads c = none) :
    safe_parse_eval_json loads raw = EvalParse.errPayload raw := by
  unfold safe_parse_eval_json
  simp only [tryLoads_all_none loads hfail]

/-- C9: the defensive self-evaluation parser is fence-transparent on JSON
object texts — a (possibly whitespace-padded) brace-delimited text wrapped
in a ```json code fence parses to the same result as the unwrapped text —
and when the decoder fails on every candidate it returns the error payload
carrying the raw input instead of raising. -/
theorem C9_safe_parse_eval_json {J : Type} (loads : List Char → Option J)
    (pre mid post : List Char) (j : J)
    (hpre : ∀ c ∈ pre, isWSChar c = true) (hpost : ∀ c ∈ post, isWSChar c = true)
    (hload : loads (obrace :: (mid ++ [cbrace])) = some j) :
    safe_parse_eval_json loads
        (wrap_code_fence (pre ++ (obrace :: (mid ++ [cbrace])) ++ post))
      = EvalParse.ok j ∧
    safe_parse_eval_json loads (pre ++ (obrace :: (mid ++ [cbrace])) ++ post)
      = EvalParse.ok j ∧
    (∀ (loads2 : List Char → Option J) (raw : List Char), (∀ c, loads2 c = none) →
      safe_parse_eval_json loads2 raw = EvalParse.errPayload raw) := by
  refine ⟨?_, ?_, fun loads2 raw h => safe_parse_all_fail loads2 raw h⟩
  · refine safe_parse_of_cleaned_obj loads _ mid j ?_ hload
    rw [stripBoth_wrapped]
    exact strip_code_fences_wrapped pre mid post hpre hpost
  · refine safe_parse_of_cleaned_obj loads _ mid j ?_ hload
    rw [stripBoth_obj pre mid post hpre hpost]
    exact strip_code_fences_obj

theorem C9_safe_parse_witness :
    safe_parse_eval_json loadsW
        (wrap_code_fence (['\n'] ++ (obrace :: ("\x22a\x22: 1".data ++ [cbrace])) ++ []))
      = EvalParse.ok 1 ∧
    safe_parse_eval_json loadsW
        (['\n'] ++ (obrace :: ("\x22a\x22: 1".data ++ [cbrace])) ++ [])
      = EvalParse.ok 1 := by
  have h := C9_safe_parse_eval_json loadsW ['\n'] "\x22a\x22: 1".data [] 1
    (by decide) (by decide) (by decide)
  exact ⟨h.1, h.2.1⟩

end HooNeedsHelp
